import Mathlib

/-!
Shallow embedding of the focus navigation engine of
`src/blitz-core/src/focus.rs` (crate `blitz-core`).

The pure data (focus levels, the classifier) is translated directly from the
source.  The persistent tree cursor (`PersistantElementIter` from the external
`dioxus_native_core` crate) is not part of this repository; it is modelled
from its documented contract: a position in the fixed traversal order that
steps forward/backward and reports when a step wraps from the last element
back to the first.  Rust panics (`unwrap`) are modelled as `Option.none`.
-/

namespace Blitz

/-- Embeds `enum FocusLevel` (focus.rs, lines 17-23).  `Ordered n` carries the
numeric value of the Rust `NonZeroU16`; well-formed values satisfy
`1 ≤ n ≤ 65535`. -/
inductive FocusLevel : Type
  | Unfocusable : FocusLevel
  | Focusable : FocusLevel
  | Ordered : Nat → FocusLevel
deriving DecidableEq, Repr

/-- Embeds `FocusLevel::focusable` (focus.rs, lines 26-32). -/
def FocusLevel.focusable : FocusLevel → Bool
  | .Unfocusable => false
  | .Focusable => true
  | .Ordered _ => true

/-- Embeds the `PartialOrd` impl for `FocusLevel` (focus.rs, lines 35-49).
The Rust code returns `Some` ordering in every case; in the `Ordered`/`Ordered`
case it compares the `NonZeroU16` values numerically. -/
def FocusLevel.pcmp : FocusLevel → FocusLevel → Option Ordering
  | .Unfocusable, .Unfocusable => some .eq
  | .Unfocusable, .Focusable => some .lt
  | .Unfocusable, .Ordered _ => some .lt
  | .Focusable, .Unfocusable => some .gt
  | .Focusable, .Focusable => some .eq
  | .Focusable, .Ordered _ => some .gt
  | .Ordered _, .Unfocusable => some .gt
  | .Ordered _, .Focusable => some .lt
  | .Ordered a, .Ordered b => some (compare a b)

/-- Embeds the `Ord` impl for `FocusLevel` (focus.rs, lines 51-55):
`self.partial_cmp(other).unwrap()`.  The `unwrap` never panics because
`pcmp` always returns `some`; `.getD .eq` is the total view of that. -/
def FocusLevel.cmp (a b : FocusLevel) : Ordering :=
  (FocusLevel.pcmp a b).getD .eq

/-- Rust `a < b` via `PartialOrd`: `partial_cmp == Some(Less)`. -/
def FocusLevel.blt (a b : FocusLevel) : Bool :=
  FocusLevel.pcmp a b == some .lt

/-- Rust `a > b` via `PartialOrd`: `partial_cmp == Some(Greater)`. -/
def FocusLevel.bgt (a b : FocusLevel) : Bool :=
  FocusLevel.pcmp a b == some .gt

/-- Rust `a >= b` via `PartialOrd`: `partial_cmp` is `Some(Greater | Equal)`. -/
def FocusLevel.bge (a b : FocusLevel) : Bool :=
  FocusLevel.pcmp a b == some .gt || FocusLevel.pcmp a b == some .eq

/-- Rust `a <= b` via `PartialOrd`: `partial_cmp` is `Some(Less | Equal)`. -/
def FocusLevel.ble (a b : FocusLevel) : Bool :=
  FocusLevel.pcmp a b == some .lt || FocusLevel.pcmp a b == some .eq

/-! ## The focus classifier (`Focus::update`, focus.rs lines 71-116) -/

/-- An attribute value as seen through `dioxus_native_core`: the classifier
only distinguishes integer values (`as_int`), text values (`as_text`), and
everything else. -/
inductive AttrValue : Type
  | int : Int → AttrValue
  | text : String → AttrValue
  | other : AttrValue
deriving DecidableEq, Repr

/-- `a.value.as_int()`. -/
def AttrValue.asInt : AttrValue → Option Int
  | .int v => some v
  | _ => none

/-- `a.value.as_text()`. -/
def AttrValue.asText : AttrValue → Option String
  | .text s => some s
  | _ => none

/-- Value of one decimal digit character. -/
def digitVal (c : Char) : Option Nat :=
  if c.isDigit then some (c.toNat - 48) else none

/-- Accumulate decimal digits; `none` on an empty list or a non-digit. -/
def parseNatDigits (l : List Char) : Option Nat :=
  match l with
  | [] => none
  | _ =>
    l.foldl (fun acc c => acc.bind (fun n => (digitVal c).map (fun d => n * 10 + d)))
      (some 0)

/-- Signed decimal integer: an optional single `+`/`-` sign then digits. -/
def parseSigned (l : List Char) : Option Int :=
  match l with
  | '-' :: rest => (parseNatDigits rest).map (fun n => -(n : Int))
  | '+' :: rest => (parseNatDigits rest).map (fun n => (n : Int))
  | _ => (parseNatDigits l).map (fun n => (n : Int))

/-- Embeds `v.parse::<i64>()` (focus.rs, line 87): optional sign, decimal
digits, and the value must fit in a signed 64-bit integer. -/
def parseI64 (s : String) : Option Int :=
  (parseSigned s.data).bind
    (fun n => if -(2 ^ 63) ≤ n ∧ n < 2 ^ 63 then some n else none)

/-- The part of a `NodeView` that `Focus::update` reads: the value of the
`tabindex` attribute when one is declared, and the element's subscribed
listener names. -/
structure NodeView : Type where
  tabindex : Option AttrValue
  listeners : List String
deriving DecidableEq, Repr

/-- `FOCUS_EVENTS` (focus.rs, lines 131-132). -/
def FOCUS_EVENTS : List String := ["keydown", "keypress", "keyup"]

/-- Embeds `struct Focus` (focus.rs, lines 57-60). -/
structure Focus : Type where
  level : FocusLevel
deriving DecidableEq, Repr

/-- The expression `a.value.as_int().or_else(|| a.value.as_text().and_then(|v|
v.parse::<i64>().ok()))` (focus.rs, lines 84-87). -/
def parsedTabIndex (a : AttrValue) : Option Int :=
  (AttrValue.asInt a).orElse (fun _ => (AttrValue.asText a).bind parseI64)

/-- The level computation inside `Focus::update` (focus.rs, lines 79-109).
`none` models the panic of `NonZeroU16::new(index as u16).unwrap()` when the
truncated value is zero; `index as u16` truncates a positive `i64` to its low
16 bits, i.e. `index % 65536`. -/
def computeFocus (v : NodeView) : Option Focus :=
  match v.tabindex with
  | some a =>
    match parsedTabIndex a with
    | some index =>
      match compare index 0 with
      | .lt => some ⟨.Unfocusable⟩
      | .eq => some ⟨.Focusable⟩
      | .gt =>
        let r := (index % 65536).toNat
        if r = 0 then none else some ⟨.Ordered r⟩
    | none => some ⟨.Unfocusable⟩
  | none =>
    if v.listeners.any (fun l => FOCUS_EVENTS.contains l) then some ⟨.Focusable⟩
    else some ⟨.Unfocusable⟩

/-- Embeds the tail of `Focus::update` (focus.rs, lines 110-116): store the
newly computed value when it differs and return whether it changed. -/
def Focus.update (f : Focus) (v : NodeView) : Option (Focus × Bool) :=
  (computeFocus v).map (fun new => if f ≠ new then (new, true) else (f, false))

/-! ## The focus navigator (`FocusState`, focus.rs lines 135-280)

The tree is the abstract mutable tree of the design: a list of elements in
the fixed depth-first traversal order.  Each element carries its id, its
cached `Focus` level, its `Focused` component (absent = `false`), and whether
it carries the `PreventDefault::KeyDown` marker. -/

/-- One element of the tree, with the components the navigator reads and
writes. -/
structure Elem : Type where
  id : Nat
  level : FocusLevel
  focused : Bool
  preventKeyDown : Bool
deriving DecidableEq, Repr

/-- `rdom.get(id)`: look an element up by id. -/
def lookupElem (rdom : List Elem) (id : Nat) : Option Elem :=
  rdom.find? (fun e => e.id == id)

/-- `rdom.get_mut(id).unwrap().insert(Focused(b))`: set the `Focused`
component of the element with the given id. -/
def setFocused (rdom : List Elem) (id : Nat) (b : Bool) : List Elem :=
  rdom.map (fun e => if e.id == id then { e with focused := b } else e)

/-- `FxHashSet::insert` on the dirty set, kept as a duplicate-free list. -/
def insertDirty (d : List Nat) (id : Nat) : List Nat :=
  if id ∈ d then d else d ++ [id]

/-- Embeds `struct FocusState` (focus.rs, lines 135-140) together with the
tree it navigates.  `cursor` is the persistent iterator's position: the index
of the element it last produced (`none` for a freshly created iterator). -/
structure Sys : Type where
  rdom : List Elem
  cursor : Option Nat
  lastFocusedId : Option Nat
  focusLevel : FocusLevel
  dirty : List Nat
deriving DecidableEq, Repr

/-- Modelled from the spec: the persistent tree cursor's `next()`/`prev()`
(the cursor itself is `dioxus_native_core::PersistantElementIter`, outside
this repository).  One step in the requested direction returns the new
position, the id of the element there, and whether the step wrapped around
the end of the traversal order.  `none` only on an empty tree. -/
def iterStep (rdom : List Elem) (forward : Bool) (pos : Option Nat) :
    Option (Nat × Nat × Bool) :=
  match rdom with
  | [] => none
  | e :: rest =>
    let n := rest.length + 1
    if forward then
      match pos with
      | none => some (0, e.id, false)
      | some p =>
        if h : p + 1 < n then some (p + 1, ((e :: rest).get ⟨p + 1, h⟩).id, false)
        else some (0, e.id, true)
    else
      match pos with
      | none =>
        some (n - 1, (((e :: rest).get ⟨n - 1, Nat.sub_lt (Nat.succ_pos _) Nat.one_pos⟩).id), true)
      | some p =>
        if p = 0 then
          some (n - 1, (((e :: rest).get ⟨n - 1, Nat.sub_lt (Nat.succ_pos _) Nat.one_pos⟩).id), true)
        else
          if h2 : p - 1 < n then some (p - 1, ((e :: rest).get ⟨p - 1, h2⟩).id, false)
          else none

/-- The full-tree scan run on a wrap (focus.rs, lines 179-215): fold over the
elements in depth-first order, keeping the closest focusable level strictly
beyond the current one in the direction of travel. -/
def closestLevel (rdom : List Elem) (forward : Bool) (fl : FocusLevel) :
    Option FocusLevel :=
  rdom.foldl
    (fun acc e =>
      if forward then
        if e.level ≠ fl ∧ (FocusLevel.focusable e.level) = true ∧
            (FocusLevel.bgt e.level fl) = true then
          match acc with
          | some l => if (FocusLevel.blt e.level l) = true then some e.level else acc
          | none => some e.level
        else acc
      else
        if e.level ≠ fl ∧ (FocusLevel.focusable e.level) = true ∧
            (FocusLevel.blt e.level fl) = true then
          match acc with
          | some l => if (FocusLevel.bgt e.level l) = true then some e.level else acc
          | none => some e.level
        else acc)
    none

/-- The loop-local state of `FocusState::progress`: the iterator position,
the `loop_marker_id`, and the `focus_level` borrowed mutably by the loop. -/
structure LoopState : Type where
  pos : Option Nat
  marker : Option Nat
  focusLevel : FocusLevel
deriving DecidableEq, Repr

/-- Result of one iteration of the `loop` in `FocusState::progress`. -/
inductive StepRes : Type
  | done : LoopState → Option Nat → StepRes
  | again : LoopState → StepRes
  | fail : StepRes
deriving DecidableEq, Repr

/-- One iteration of the `loop` in `FocusState::progress` (focus.rs, lines
169-249): step the cursor; on a wrap rescan the tree for the next level
bucket and clear the loop marker; break with no selection when the marker is
re-hit, otherwise set it when unset; select the visited element when its
level is at-or-past, focusable, and exactly the active level. -/
def loopIter (rdom : List Elem) (forward : Bool) (ls : LoopState) : StepRes :=
  match iterStep rdom forward ls.pos with
  | none => .fail
  | some (pos1, newId, looped) =>
    let scan :=
      if looped then
        let closest := closestLevel rdom forward ls.focusLevel
        let fl1 :=
          match closest with
          | some l => l
          | none => if forward then FocusLevel.Unfocusable else FocusLevel.Focusable
        ((none : Option Nat), fl1)
      else (ls.marker, ls.focusLevel)
    match scan with
    | (marker1, fl1) =>
      match marker1 with
      | some last =>
        if newId = last then .done ⟨pos1, marker1, fl1⟩ none
        else
          match lookupElem rdom newId with
          | none => .fail
          | some e =>
            let afterPrev :=
              if forward then FocusLevel.bge e.level fl1
              else FocusLevel.ble e.level fl1
            if afterPrev = true ∧ (FocusLevel.focusable e.level) = true ∧ e.level = fl1 then
              .done ⟨pos1, marker1, fl1⟩ (some newId)
            else .again ⟨pos1, marker1, fl1⟩
      | none =>
        let marker2 := some newId
        match lookupElem rdom newId with
        | none => .fail
        | some e =>
          let afterPrev :=
            if forward then FocusLevel.bge e.level fl1
            else FocusLevel.ble e.level fl1
          if afterPrev = true ∧ (FocusLevel.focusable e.level) = true ∧ e.level = fl1 then
            .done ⟨pos1, marker2, fl1⟩ (some newId)
          else .again ⟨pos1, marker2, fl1⟩

/-- The `loop` of `FocusState::progress`, run on fuel.  `none` means the
given number of iterations did not suffice (the Rust loop has no bound of its
own) or an `unwrap` failed. -/
def progressLoop (rdom : List Elem) (forward : Bool) :
    Nat → LoopState → Option (LoopState × Option Nat)
  | 0, _ => none
  | fuel + 1, ls =>
    match loopIter rdom forward ls with
    | .fail => none
    | .done ls1 sel => some (ls1, sel)
    | .again ls1 => progressLoop rdom forward fuel ls1

/-- The index of the first element with the given id, used to embed the
repositioning loop `while self.focus_iter.next(rdom).id() != id {}`: stepping
the cursor until it produces `id` leaves it positioned on `id`. -/
def indexOfId : List Elem → Nat → Option Nat
  | [], _ => none
  | e :: rest, id =>
    if e.id == id then some 0 else (indexOfId rest id).map (fun n => n + 1)

/-- The commit step of `FocusState::progress` (focus.rs, lines 251-260) after
the loop has finished, together with the write-back of the loop-mutated
iterator position and `focus_level`.  When an element was selected: mark it
focused, replace `last_focused_id`, unfocus the previous element and mark it
dirty, reposition the cursor on the selection, and mark the selection
dirty. -/
def applySelect (s : Sys) (pos : Option Nat) (fl : FocusLevel)
    (sel : Option Nat) : Option Sys :=
  let s1 : Sys := { s with cursor := pos, focusLevel := fl }
  match sel with
  | none => some s1
  | some id =>
    match lookupElem s1.rdom id with
    | none => none
    | some _ =>
      let rdom1 := setFocused s1.rdom id true
      match s1.lastFocusedId with
      | some old =>
        let dirty1 := insertDirty s1.dirty old
        match lookupElem rdom1 old with
        | none => none
        | some _ =>
          let rdom2 := setFocused rdom1 old false
          match indexOfId rdom2 id with
          | none => none
          | some idx =>
            some { rdom := rdom2, cursor := some idx, lastFocusedId := some id,
                   focusLevel := fl, dirty := insertDirty dirty1 id }
      | none =>
        match indexOfId rdom1 id with
        | none => none
        | some idx =>
          some { rdom := rdom1, cursor := some idx, lastFocusedId := some id,
                 focusLevel := fl, dirty := insertDirty s1.dirty id }

/-- The body of `FocusState::progress` after the prevent-default guard: run
the loop (initial marker = `last_focused_id`, focus.rs line 163) and commit
its result. -/
def progressCore (fuel : Nat) (s : Sys) (forward : Bool) : Option Sys :=
  (progressLoop s.rdom forward fuel ⟨s.cursor, s.lastFocusedId, s.focusLevel⟩).bind
    (fun p => applySelect s p.1.pos p.1.focusLevel p.2)

/-- Embeds `FocusState::progress` (focus.rs, lines 154-261).  If the
currently focused element carries `PreventDefault::KeyDown`, return at once
with nothing changed; otherwise run the search loop and commit its result.
`none` models a panic or a search loop that did not finish within `fuel`
iterations. -/
def progress (fuel : Nat) (s : Sys) (forward : Bool) : Option Sys :=
  match s.lastFocusedId with
  | some last =>
    match lookupElem s.rdom last with
    | none => none
    | some e =>
      if e.preventKeyDown then some s
      else progressCore fuel s forward
  | none => progressCore fuel s forward

/-- Embeds `FocusState::set_focus` (focus.rs, lines 264-274): replace
`last_focused_id`, unfocus the previous element (without marking it dirty),
focus `id`, load its level into `focus_level`, reposition the cursor on `id`,
and mark `id` dirty. -/
def setFocus (s : Sys) (id : Nat) : Option Sys :=
  let old := s.lastFocusedId
  let step1 : Option (List Elem) :=
    match old with
    | some o =>
      match lookupElem s.rdom o with
      | none => none
      | some _ => some (setFocused s.rdom o false)
    | none => some s.rdom
  match step1 with
  | none => none
  | some rdom1 =>
    match lookupElem rdom1 id with
    | none => none
    | some e =>
      let rdom2 := setFocused rdom1 id true
      match indexOfId rdom2 id with
      | none => none
      | some idx =>
        some { rdom := rdom2, cursor := some idx, lastFocusedId := some id,
               focusLevel := e.level, dirty := insertDirty s.dirty id }

/-- One external call to the navigator: a `progress` (with the fuel granted
to its loop) or a `set_focus`. -/
inductive NavOp : Type
  | nav : Nat → Bool → NavOp
  | setF : Nat → NavOp
deriving DecidableEq, Repr

/-- Run one call. -/
def runOp (s : Sys) : NavOp → Option Sys
  | .nav fuel fwd => progress fuel s fwd
  | .setF id => setFocus s id

/-- Run a finite sequence of calls; `none` as soon as one call panics or
exhausts its fuel. -/
def runOps (s : Sys) : List NavOp → Option Sys
  | [] => some s
  | op :: rest => (runOp s op).bind (fun s1 => runOps s1 rest)

/-- The navigator state created by `FocusState::create` (focus.rs, lines
143-151) over a given tree: fresh iterator, nothing focused, default level,
empty dirty set. -/
def initSys (rdom : List Elem) : Sys :=
  { rdom := rdom, cursor := none, lastFocusedId := none,
    focusLevel := FocusLevel.Unfocusable, dirty := [] }

/-! ## Helper lemmas -/

/-- `computeFocus` on a declared `tabindex` whose value parses to `i`. -/
lemma computeFocus_parsed (v : NodeView) (a : AttrValue) (i : Int)
    (ha : v.tabindex = some a) (hi : parsedTabIndex a = some i) :
    computeFocus v =
      match compare i 0 with
      | .lt => some ⟨FocusLevel.Unfocusable⟩
      | .eq => some ⟨FocusLevel.Focusable⟩
      | .gt =>
        if (i % 65536).toNat = 0 then none
        else some ⟨FocusLevel.Ordered (i % 65536).toNat⟩ := by
  simp only [computeFocus, ha, hi]

/-! ## Claim theorems -/

/-- C1, counterexample: in the code's order (focus.rs, lines 43 and 45)
`Ordered(_)` compares *below* `Focusable`, so the claimed facts
`Ordered(1) > Focusable` and `Ordered(65535) > Focusable` are both false. -/
theorem c1_order_counterexample :
    FocusLevel.cmp (FocusLevel.Ordered 1) FocusLevel.Focusable = Ordering.lt ∧
    FocusLevel.cmp (FocusLevel.Ordered 1) FocusLevel.Focusable ≠ Ordering.gt ∧
    FocusLevel.cmp (FocusLevel.Ordered 65535) FocusLevel.Focusable ≠ Ordering.gt := by
  decide

/-- C1 (amended): the `FocusLevel` comparison is a strict total order, but
with `Unfocusable < Ordered(n) < Focusable` for every `n`, and
`Ordered(a) < Ordered(b)` iff `a < b`; in particular `Ordered(1) < Focusable`
and `Ordered(65535) < Focusable`. -/
theorem c1_order_amended (x y z : FocusLevel) (a b n : Nat) :
    FocusLevel.cmp x x = Ordering.eq ∧
    (FocusLevel.cmp x y = Ordering.eq ↔ x = y) ∧
    (FocusLevel.cmp x y = Ordering.lt ↔ FocusLevel.cmp y x = Ordering.gt) ∧
    (FocusLevel.cmp x y = Ordering.lt → FocusLevel.cmp y z = Ordering.lt →
      FocusLevel.cmp x z = Ordering.lt) ∧
    FocusLevel.cmp FocusLevel.Unfocusable FocusLevel.Focusable = Ordering.lt ∧
    FocusLevel.cmp FocusLevel.Unfocusable (FocusLevel.Ordered n) = Ordering.lt ∧
    FocusLevel.cmp (FocusLevel.Ordered n) FocusLevel.Focusable = Ordering.lt ∧
    (FocusLevel.cmp (FocusLevel.Ordered a) (FocusLevel.Ordered b) = Ordering.lt ↔
      a < b) := by
  cases x <;> cases y <;> cases z <;>
    first
    | (simp [FocusLevel.cmp, FocusLevel.pcmp, Nat.compare_eq_lt, Nat.compare_eq_gt,
        Nat.compare_eq_eq]; omega)
    | simp [FocusLevel.cmp, FocusLevel.pcmp, Nat.compare_eq_lt, Nat.compare_eq_gt,
        Nat.compare_eq_eq]

/-- C1, witness: the transitivity component of `c1_order_amended` applied at
`Unfocusable`, `Ordered 2`, `Focusable`. -/
theorem c1_order_amended_witness :
    FocusLevel.cmp FocusLevel.Unfocusable FocusLevel.Focusable = Ordering.lt :=
  (c1_order_amended FocusLevel.Unfocusable (FocusLevel.Ordered 2)
      FocusLevel.Focusable 0 0 0).2.2.2.1 (by decide) (by decide)

/-- C4, counterexample: a `tabindex` of 65537 (out of the positive 16-bit
range) does not panic: `65537 as u16` silently wraps to 1 and the classifier
returns `Ordered(1)`. -/
theorem c4_overflow_counterexample :
    computeFocus ⟨some (AttrValue.int 65537), []⟩ =
      some ⟨FocusLevel.Ordered 1⟩ ∧
    computeFocus ⟨some (AttrValue.int 65537), []⟩ ≠ none := by
  decide

/-- C4 (amended): for a parsed `tabindex` value `i > 65535` the code computes
`i % 65536` (the `as u16` truncation); when that remainder is 0 the
`NonZeroU16::new(..).unwrap()` panics, otherwise the value silently wraps
into `Ordered(i % 65536)`. -/
theorem c4_overflow_amended (v : NodeView) (a : AttrValue) (i : Int)
    (ha : v.tabindex = some a) (hi : parsedTabIndex a = some i)
    (hgt : 65535 < i) :
    computeFocus v =
      if i % 65536 = 0 then none
      else some ⟨FocusLevel.Ordered (i % 65536).toNat⟩ := by
  have h0 : compare i 0 = Ordering.gt := compare_gt_iff_gt.mpr (by omega)
  rw [computeFocus_parsed v a i ha hi, h0]
  have hnn : 0 ≤ i % 65536 := Int.emod_nonneg i (by norm_num)
  by_cases hz : i % 65536 = 0
  · simp [hz]
  · have ht : (i % 65536).toNat ≠ 0 := by omega
    simp [hz, ht]

/-- C4, witness: `c4_overflow_amended` at the concrete value 70000, which
silently wraps to `Ordered(4464)`. -/
theorem c4_overflow_amended_witness :
    computeFocus ⟨some (AttrValue.int 70000), []⟩ =
      if (70000 : Int) % 65536 = 0 then none
      else some ⟨FocusLevel.Ordered ((70000 : Int) % 65536).toNat⟩ :=
  c4_overflow_amended ⟨some (AttrValue.int 70000), []⟩ (AttrValue.int 70000)
    70000 rfl rfl (by norm_num)

/-- C7, counterexample: an element whose `tabindex` attribute is present but
unparseable (`"abc"`) and which subscribes to `keydown` is classified
`Unfocusable` by the code (the listener check is only reached when no
`tabindex` attribute is declared at all), not `Focusable` as claimed. -/
theorem c7_unparseable_counterexample :
    computeFocus ⟨some (AttrValue.text "abc"), ["keydown"]⟩ =
      some ⟨FocusLevel.Unfocusable⟩ ∧
    some (Focus.mk FocusLevel.Unfocusable) ≠
      some (Focus.mk FocusLevel.Focusable) := by
  constructor
  · decide
  · decide

/-- C7 (amended): for an element that declares no `tabindex` attribute at
all, `Focus::update` assigns `Focusable` iff it subscribes to one of
`keydown`, `keypress`, `keyup`, and `Unfocusable` otherwise; when a
`tabindex` attribute is present but its value is not parseable as an
integer, the level is `Unfocusable` regardless of listeners. -/
theorem c7_no_tabindex_amended (v : NodeView) :
    (v.tabindex = none →
      computeFocus v =
        some ⟨if v.listeners.any (fun l => FOCUS_EVENTS.contains l) then
          FocusLevel.Focusable else FocusLevel.Unfocusable⟩) ∧
    (∀ a, v.tabindex = some a → parsedTabIndex a = none →
      computeFocus v = some ⟨FocusLevel.Unfocusable⟩) := by
  constructor
  · intro h
    simp only [computeFocus, h]
    by_cases hl : (v.listeners.any fun l => FOCUS_EVENTS.contains l) = true
    · rw [if_pos hl, if_pos hl]
    · rw [if_neg hl, if_neg hl]
  · intro a ha hp
    simp only [computeFocus, ha, hp]

/-- C7, witness: both components of `c7_no_tabindex_amended` at concrete
elements. -/
theorem c7_no_tabindex_amended_witness :
    (computeFocus ⟨none, ["keyup"]⟩ =
      some ⟨if (["keyup"] : List String).any (fun l => FOCUS_EVENTS.contains l)
        then FocusLevel.Focusable else FocusLevel.Unfocusable⟩) ∧
    (computeFocus ⟨some (AttrValue.text "abc"), ["keydown"]⟩ =
      some ⟨FocusLevel.Unfocusable⟩) :=
  ⟨(c7_no_tabindex_amended ⟨none, ["keyup"]⟩).1 rfl,
   (c7_no_tabindex_amended ⟨some (AttrValue.text "abc"), ["keydown"]⟩).2
     (AttrValue.text "abc") rfl (by decide)⟩

/-- C8 (confirmed): for a declared `tabindex` whose value parses to an
integer `i ≤ 65535`, the classifier assigns `Unfocusable` when `i < 0`,
`Focusable` when `i = 0`, and `Ordered(i)` when `i > 0`. -/
theorem c8_tabindex_classification (v : NodeView) (a : AttrValue) (i : Int)
    (ha : v.tabindex = some a) (hi : parsedTabIndex a = some i)
    (hle : i ≤ 65535) :
    computeFocus v =
      some ⟨if i < 0 then FocusLevel.Unfocusable
        else if i = 0 then FocusLevel.Focusable
        else FocusLevel.Ordered i.toNat⟩ := by
  rw [computeFocus_parsed v a i ha hi]
  rcases lt_trichotomy i 0 with h | h | h
  · rw [compare_lt_iff_lt.mpr h]
    simp [h]
  · rw [h]
    simp [compare_eq_iff_eq.mpr rfl]
  · rw [compare_gt_iff_gt.mpr h]
    have hmod : i % 65536 = i := by omega
    rw [hmod]
    have ht : ¬ i.toNat = 0 := by omega
    have h1 : ¬ i < 0 := by omega
    have h2 : ¬ i = 0 := by omega
    rw [if_neg ht, if_neg h1, if_neg h2]

/-- C8, witness: `c8_tabindex_classification` at the textual value `"42"`. -/
theorem c8_tabindex_classification_witness :
    computeFocus ⟨some (AttrValue.text "42"), []⟩ =
      some ⟨if (42 : Int) < 0 then FocusLevel.Unfocusable
        else if (42 : Int) = 0 then FocusLevel.Focusable
        else FocusLevel.Ordered (42 : Int).toNat⟩ :=
  c8_tabindex_classification ⟨some (AttrValue.text "42"), []⟩
    (AttrValue.text "42") 42 rfl (by decide) (by norm_num)

/-- C9 (confirmed): when the classifier computes `new` for the element view,
`Focus::update` returns `true` exactly when `new` differs from the stored
value, returns `false` exactly when they are equal, and a second run on the
unchanged view leaves the stored value the same and reports `false`. -/
theorem c9_update_idempotent (f : Focus) (v : NodeView) (new : Focus)
    (h : computeFocus v = some new) :
    (Focus.update f v = some (new, true) ↔ new ≠ f) ∧
    (Focus.update f v = some (f, false) ↔ new = f) ∧
    (∀ f1 b1, Focus.update f v = some (f1, b1) →
      Focus.update f1 v = some (f1, false)) := by
  have hupd : Focus.update f v =
      some (if f ≠ new then (new, true) else (f, false)) := by
    simp [Focus.update, h]
  by_cases hfe : f = new
  · subst hfe
    rw [if_neg (show ¬ f ≠ f by simp)] at hupd
    refine ⟨?_, ?_, ?_⟩
    · simp [hupd]
    · simp [hupd]
    · intro f1 b1 h1
      rw [hupd] at h1
      have h2 : f = f1 ∧ false = b1 := by simpa using h1
      obtain ⟨h3, h4⟩ := h2
      subst h3
      subst h4
      exact hupd
  · have hupd2 : Focus.update f v = some (new, true) := by
      rw [hupd, if_pos hfe]
    refine ⟨?_, ?_, ?_⟩
    · simp [hupd2, Ne.symm hfe]
    · rw [hupd2]
      constructor
      · intro hx
        simp at hx
      · intro hx
        exact absurd hx (Ne.symm hfe)
    · intro f1 b1 h1
      rw [hupd2] at h1
      have h2 : new = f1 ∧ true = b1 := by simpa using h1
      obtain ⟨h3, h4⟩ := h2
      subst h3
      subst h4
      simp [Focus.update, h]

/-- C9, witness: `c9_update_idempotent` at a stored `Unfocusable` value and a
view with no tabindex and no listeners. -/
theorem c9_update_idempotent_witness :
    Focus.update ⟨FocusLevel.Unfocusable⟩ ⟨none, []⟩ =
      some (⟨FocusLevel.Unfocusable⟩, false) :=
  (c9_update_idempotent ⟨FocusLevel.Unfocusable⟩ ⟨none, []⟩
    ⟨FocusLevel.Unfocusable⟩ rfl).2.1.mpr rfl

/-! ## The C2 scenario: A `Focusable`, B `Ordered(1)`, C `Unfocusable` -/

/-- Element A: `Focusable`, id 0. -/
def c2A : Elem := ⟨0, FocusLevel.Focusable, false, false⟩

/-- Element B: `Ordered(1)`, id 1. -/
def c2B : Elem := ⟨1, FocusLevel.Ordered 1, false, false⟩

/-- Element C: `Unfocusable`, id 2. -/
def c2C : Elem := ⟨2, FocusLevel.Unfocusable, false, false⟩

/-- The initial navigator state over the tree A, B, C. -/
def c2Sys : Sys := initSys [c2A, c2B, c2C]

/-- State after the first `navigate(true)`: B is selected. -/
def c2S1 : Sys :=
  { rdom := [c2A, { c2B with focused := true }, c2C], cursor := some 1,
    lastFocusedId := some 1, focusLevel := FocusLevel.Ordered 1, dirty := [1] }

/-- State after the second `navigate(true)`: A is selected. -/
def c2S2 : Sys :=
  { rdom := [{ c2A with focused := true }, c2B, c2C], cursor := some 0,
    lastFocusedId := some 0, focusLevel := FocusLevel.Focusable, dirty := [1, 0] }

/-- State after the third `navigate(true)`: B is selected again. -/
def c2S3 : Sys :=
  { rdom := [c2A, { c2B with focused := true }, c2C], cursor := some 1,
    lastFocusedId := some 1, focusLevel := FocusLevel.Ordered 1, dirty := [1, 0] }

/-- C2, counterexample: on the tree A (`Focusable`), B (`Ordered(1)`), C
(`Unfocusable`), the first `navigate(true)` from the initial state focuses B
(id 1), not A (id 0) as claimed: the first wrap picks the *closest* level
above `Unfocusable`, which in the code's order is `Ordered(1)`, below
`Focusable`. -/
theorem c2_first_call_counterexample :
    (progress 50 c2Sys true).bind Sys.lastFocusedId = some 1 ∧
    (progress 50 c2Sys true).bind Sys.lastFocusedId ≠ some 0 := by
  constructor
  · rfl
  · decide

/-- C2 (amended): on the tree A, B, C the forward cycle from the initial
state selects B, then A, then B again: the first wrap sets the active level
to `Ordered(1)` (the closest level above `Unfocusable`), the second call
moves up to `Focusable` and selects A, and the third call wraps twice —
finding no level above `Focusable` it resets to `Unfocusable`, then finds
`Ordered(1)` again and reselects B. -/
theorem c2_forward_cycle_amended :
    progress 50 c2Sys true = some c2S1 ∧
    progress 50 c2S1 true = some c2S2 ∧
    progress 50 c2S2 true = some c2S3 := by
  refine ⟨?_, ?_, ?_⟩ <;> rfl

/-! ## The C3 scenario: a tree with no focusable element -/

/-- A tree with a single `Unfocusable` element. -/
def c3Rdom : List Elem := [⟨0, FocusLevel.Unfocusable, false, false⟩]

/-- The initial navigator state over that tree. -/
def c3Sys : Sys := initSys c3Rdom

/-- The loop state the search loop reaches after its first iteration on
`c3Rdom`. -/
def c3Fix : LoopState := ⟨some 0, some 0, FocusLevel.Unfocusable⟩

/-- On `c3Rdom` the first loop iteration moves to the fixed point state. -/
lemma c3_loopIter_start :
    loopIter c3Rdom true ⟨none, none, FocusLevel.Unfocusable⟩ =
      StepRes.again c3Fix := by
  decide

/-- On `c3Rdom` the loop state `c3Fix` reproduces itself forever: every step
wraps, the wrap clears the loop marker before the sentinel check, the marker
is re-set to the same element, and nothing satisfies the selection test. -/
lemma c3_loopIter_fix : loopIter c3Rdom true c3Fix = StepRes.again c3Fix := by
  decide

/-- The search loop started at `c3Fix` exhausts any amount of fuel. -/
lemma c3_loop_fix_none (fuel : Nat) :
    progressLoop c3Rdom true fuel c3Fix = none := by
  induction fuel with
  | zero => rfl
  | succ n ih =>
    simp only [progressLoop, c3_loopIter_fix]
    exact ih

/-- The search loop started from the initial state exhausts any fuel. -/
lemma c3_loop_none (fuel : Nat) :
    progressLoop c3Rdom true fuel ⟨none, none, FocusLevel.Unfocusable⟩ = none := by
  cases fuel with
  | zero => rfl
  | succ n =>
    simp only [progressLoop, c3_loopIter_start]
    exact c3_loop_fix_none n

/-- C3 (code bug): on a tree with one element and no focusable element,
`FocusState::progress` does *not* terminate: the sentinel is cleared on every
wrap before the re-hit check, so the loop never breaks.  Formally, the search
exhausts every fuel bound.  The claim (and the code's own comment `once we
have looked at all the elements exit the loop`) says the search terminates
without a selection. -/
theorem c3_no_focusable_diverges (fuel : Nat) :
    progress fuel c3Sys true = none := by
  have hstep : progress fuel c3Sys true =
      (progressLoop c3Rdom true fuel ⟨none, none, FocusLevel.Unfocusable⟩).bind
        (fun p => applySelect c3Sys p.1.pos p.1.focusLevel p.2) := rfl
  rw [hstep, c3_loop_none fuel]
  rfl

/-- C6 (confirmed): when the focused element carries the
`PreventDefault::KeyDown` marker, `FocusState::progress` returns immediately
and the whole state — focused flags, cursor, active level, last focused id,
dirty set — is exactly unchanged, for either direction and any fuel. -/
theorem c6_prevent_default_noop (fuel : Nat) (s : Sys) (fwd : Bool) (i : Nat)
    (e : Elem) (hlast : s.lastFocusedId = some i)
    (hfind : lookupElem s.rdom i = some e) (hpd : e.preventKeyDown = true) :
    progress fuel s fwd = some s := by
  simp [progress, hlast, hfind, hpd]

/-- A one-element tree whose element is focused and marked
`PreventDefault::KeyDown`. -/
def c6Sys : Sys :=
  { rdom := [⟨5, FocusLevel.Focusable, true, true⟩], cursor := some 0,
    lastFocusedId := some 5, focusLevel := FocusLevel.Focusable, dirty := [] }

/-- C6, witness: `c6_prevent_default_noop` on `c6Sys`. -/
theorem c6_prevent_default_noop_witness : progress 3 c6Sys true = some c6Sys :=
  c6_prevent_default_noop 3 c6Sys true 5 ⟨5, FocusLevel.Focusable, true, true⟩
    rfl rfl rfl

/-! ## Lemmas about the tree-mutation helpers -/

/-- Membership in the dirty set after an insertion. -/
lemma mem_insertDirty (d : List Nat) (x y : Nat) :
    x ∈ insertDirty d y ↔ x ∈ d ∨ x = y := by
  unfold insertDirty
  by_cases h : y ∈ d
  · rw [if_pos h]
    constructor
    · exact Or.inl
    · rintro (hx | rfl)
      · exact hx
      · exact h
  · rw [if_neg h]
    simp [List.mem_append]

/-- Setting a `Focused` component does not change the element ids. -/
lemma map_id_setFocused (r : List Elem) (id : Nat) (b : Bool) :
    (setFocused r id b).map Elem.id = r.map Elem.id := by
  induction r with
  | nil => rfl
  | cons e t ih =>
    simp only [setFocused, List.map_cons] at ih ⊢
    rw [ih]
    by_cases h : (e.id == id) = true
    · rw [if_pos h]
    · rw [if_neg h]

/-- What an element of `setFocused r id b` looks like: either it is the
element whose `Focused` component was set, or it is an untouched element of
`r` with a different id. -/
lemma mem_setFocused {r : List Elem} {id : Nat} {b : Bool} {e : Elem}
    (h : e ∈ setFocused r id b) :
    (e.id = id ∧ e.focused = b) ∨ (e ∈ r ∧ e.id ≠ id) := by
  unfold setFocused at h
  obtain ⟨e0, he0, heq⟩ := List.mem_map.mp h
  by_cases hid : (e0.id == id) = true
  · rw [if_pos hid] at heq
    left
    rw [← heq]
    exact ⟨by simpa using hid, rfl⟩
  · rw [if_neg hid] at heq
    right
    rw [← heq]
    exact ⟨he0, by simpa using hid⟩

/-- `lookupElem` on a cons cell. -/
lemma lookupElem_cons (e : Elem) (t : List Elem) (id : Nat) :
    lookupElem (e :: t) id =
      if (e.id == id) = true then some e else lookupElem t id := by
  by_cases h : (e.id == id) = true
  · rw [if_pos h]
    exact List.find?_cons_of_pos t h
  · rw [if_neg h]
    exact List.find?_cons_of_neg t h

/-- `setFocused` on a cons cell. -/
lemma setFocused_cons (e : Elem) (t : List Elem) (o : Nat) (b : Bool) :
    setFocused (e :: t) o b =
      (if (e.id == o) = true then { e with focused := b } else e) ::
        setFocused t o b := rfl

/-- Setting a `Focused` component does not change which ids are present. -/
lemma lookup_setFocused_isSome (r : List Elem) (o : Nat) (b : Bool) (id : Nat) :
    (lookupElem (setFocused r o b) id).isSome = (lookupElem r id).isSome := by
  induction r with
  | nil => rfl
  | cons e t ih =>
    rw [setFocused_cons, lookupElem_cons, lookupElem_cons]
    have hid : ((if (e.id == o) = true then { e with focused := b } else e).id == id) =
        (e.id == id) := by
      by_cases h : (e.id == o) = true
      · rw [if_pos h]
      · rw [if_neg h]
    rw [hid]
    by_cases h : (e.id == id) = true
    · rw [if_pos h, if_pos h]
      rfl
    · rw [if_neg h, if_neg h]
      exact ih

/-- The repositioning index exists exactly when the id is present. -/
lemma indexOfId_isSome (r : List Elem) (id : Nat) :
    (indexOfId r id).isSome = (lookupElem r id).isSome := by
  induction r with
  | nil => rfl
  | cons e t ih =>
    rw [indexOfId, lookupElem_cons]
    by_cases h : (e.id == id) = true
    · rw [if_pos h, if_pos h]
      rfl
    · rw [if_neg h, if_neg h]
      simpa using ih

/-! ## The at-most-one-focused invariant -/

/-- The navigator invariant: ids are unique in the tree, and any focused
element is the one recorded in `last_focused_id`. -/
def FocusInv (s : Sys) : Prop :=
  (s.rdom.map Elem.id).Nodup ∧
    ∀ e ∈ s.rdom, e.focused = true → s.lastFocusedId = some e.id

/-- The commit step of `progress` preserves the invariant. -/
lemma applySelect_inv (s : Sys) (pos : Option Nat) (fl : FocusLevel)
    (sel : Option Nat) (s1 : Sys) (hinv : FocusInv s)
    (h : applySelect s pos fl sel = some s1) : FocusInv s1 := by
  obtain ⟨hnd, hfoc⟩ := hinv
  simp only [applySelect] at h
  split at h
  · -- sel = none: only cursor and focus level change
    obtain rfl : ({ s with cursor := pos, focusLevel := fl } : Sys) = s1 := by
      simpa using h
    exact ⟨hnd, hfoc⟩
  · -- sel = some id
    rename_i id
    split at h
    · exact absurd h (by simp)
    · split at h
      · -- a previous element old was focused
        rename_i hL _ old hLold
        split at h
        · exact absurd h (by simp)
        · split at h
          · exact absurd h (by simp)
          · rename_i idx hidx
            obtain rfl :
                ({ rdom := setFocused (setFocused s.rdom id true) old false,
                   cursor := some idx, lastFocusedId := some id, focusLevel := fl,
                   dirty := insertDirty (insertDirty s.dirty old) id } : Sys) = s1 := by
              simpa using h
            refine ⟨by simpa [map_id_setFocused] using hnd, ?_⟩
            intro e he hf
            rcases mem_setFocused he with ⟨_, hfb⟩ | ⟨he1, hneold⟩
            · rw [hfb] at hf
              cases hf
            · rcases mem_setFocused he1 with ⟨hidf, _⟩ | ⟨he2, _⟩
              · rw [hidf]
              · have h2 := hfoc e he2 hf
                rw [hLold] at h2
                exact absurd (Option.some.inj h2).symm hneold
      · -- nothing was focused before
        rename_i hL _ hLnone
        split at h
        · exact absurd h (by simp)
        · rename_i idx hidx
          obtain rfl :
              ({ rdom := setFocused s.rdom id true, cursor := some idx,
                 lastFocusedId := some id, focusLevel := fl,
                 dirty := insertDirty s.dirty id } : Sys) = s1 := by
            simpa using h
          refine ⟨by simpa [map_id_setFocused] using hnd, ?_⟩
          intro e he hf
          rcases mem_setFocused he with ⟨hidf, _⟩ | ⟨he1, _⟩
          · rw [hidf]
          · have h2 := hfoc e he1 hf
            rw [hLnone] at h2
            cases h2

/-- `set_focus` preserves the invariant. -/
lemma setFocus_inv (s : Sys) (id : Nat) (s1 : Sys) (hinv : FocusInv s)
    (h : setFocus s id = some s1) : FocusInv s1 := by
  obtain ⟨hnd, hfoc⟩ := hinv
  simp only [setFocus] at h
  split at h
  · exact absurd h (by simp)
  · rename_i rdom1 hstep
    split at h
    · exact absurd h (by simp)
    · rename_i e2 hlook
      split at h
      · exact absurd h (by simp)
      · rename_i idx hidx
        obtain rfl :
            ({ rdom := setFocused rdom1 id true, cursor := some idx,
               lastFocusedId := some id, focusLevel := e2.level,
               dirty := insertDirty s.dirty id } : Sys) = s1 := by
          simpa using h
        have hquiet : ∀ e ∈ rdom1, e.focused = true → False := by
          intro e he hf
          split at hstep
          · rename_i old hLold
            split at hstep
            · exact absurd hstep (by simp)
            · obtain rfl : setFocused s.rdom old false = rdom1 := by
                simpa using hstep
              rcases mem_setFocused he with ⟨_, hfb⟩ | ⟨he1, hneold⟩
              · rw [hfb] at hf
                cases hf
              · have h2 := hfoc e he1 hf
                rw [hLold] at h2
                exact hneold (Option.some.inj h2).symm
          · rename_i hLnone
            obtain rfl : s.rdom = rdom1 := by simpa using hstep
            have h2 := hfoc e he hf
            rw [hLnone] at h2
            cases h2
        have hndr1 : (rdom1.map Elem.id).Nodup := by
          split at hstep
          · rename_i old hLold
            split at hstep
            · exact absurd hstep (by simp)
            · obtain rfl : setFocused s.rdom old false = rdom1 := by
                simpa using hstep
              simpa [map_id_setFocused] using hnd
          · obtain rfl : s.rdom = rdom1 := by simpa using hstep
            exact hnd
        refine ⟨by simpa [map_id_setFocused] using hndr1, ?_⟩
        intro e he hf
        rcases mem_setFocused he with ⟨hidf, _⟩ | ⟨he1, _⟩
        · rw [hidf]
        · exact (hquiet e he1 hf).elim

/-- A completed `progressCore` call is the commit of some loop result. -/
lemma progressCore_cases (fuel : Nat) (s : Sys) (fwd : Bool) (s1 : Sys)
    (h : progressCore fuel s fwd = some s1) :
    ∃ pos fl sel, applySelect s pos fl sel = some s1 := by
  unfold progressCore at h
  rcases hpl : progressLoop s.rdom fwd fuel ⟨s.cursor, s.lastFocusedId, s.focusLevel⟩
    with _ | p
  · rw [hpl] at h
    cases h
  · rw [hpl] at h
    exact ⟨p.1.pos, p.1.focusLevel, p.2, h⟩

/-- A completed `progress` call either hit the prevent-default guard (state
unchanged) or is the commit of some loop result. -/
lemma progress_cases (fuel : Nat) (s : Sys) (fwd : Bool) (s1 : Sys)
    (h : progress fuel s fwd = some s1) :
    s1 = s ∨ ∃ pos fl sel, applySelect s pos fl sel = some s1 := by
  unfold progress at h
  split at h
  · split at h
    · cases h
    · split at h
      · exact Or.inl (Option.some.inj h).symm
      · exact Or.inr (progressCore_cases fuel s fwd s1 h)
  · exact Or.inr (progressCore_cases fuel s fwd s1 h)

/-- Every single navigator call preserves the invariant. -/
lemma runOp_inv (s : Sys) (op : NavOp) (s1 : Sys) (hinv : FocusInv s)
    (h : runOp s op = some s1) : FocusInv s1 := by
  cases op with
  | nav fuel fwd =>
    rcases progress_cases fuel s fwd s1 h with rfl | ⟨pos, fl, sel, hap⟩
    · exact hinv
    · exact applySelect_inv s pos fl sel s1 hinv hap
  | setF id => exact setFocus_inv s id s1 hinv h

/-- Every finite sequence of navigator calls preserves the invariant. -/
lemma runOps_inv (ops : List NavOp) : ∀ (s s1 : Sys), FocusInv s →
    runOps s ops = some s1 → FocusInv s1 := by
  induction ops with
  | nil =>
    intro s s1 hinv h
    obtain rfl : s = s1 := by simpa [runOps] using h
    exact hinv
  | cons op rest ih =>
    intro s s1 hinv h
    simp only [runOps] at h
    rcases hop : runOp s op with _ | s2
    · rw [hop] at h
      cases h
    · rw [hop] at h
      exact ih s2 s1 (runOp_inv s op s2 hinv hop) h

/-- A duplicate-id-free list in which every focused element has the id `c`
has at most one focused element. -/
lemma filter_focused_le_one (l : List Elem) (c : Nat)
    (hnd : (l.map Elem.id).Nodup)
    (hall : ∀ e ∈ l, e.focused = true → e.id = c) :
    (l.filter (fun e => e.focused)).length ≤ 1 := by
  induction l with
  | nil => simp
  | cons a t ih =>
    simp only [List.map_cons, List.nodup_cons] at hnd
    obtain ⟨hna, hndt⟩ := hnd
    by_cases ha : a.focused = true
    · have hta : t.filter (fun e => e.focused) = [] := by
        rw [List.filter_eq_nil_iff]
        intro x hx hxf
        have h1 : x.id = c := hall x (List.mem_cons_of_mem _ hx) (by simpa using hxf)
        have h2 : a.id = c := hall a (List.mem_cons_self _ _) ha
        apply hna
        rw [h2, ← h1]
        exact List.mem_map_of_mem Elem.id hx
      rw [List.filter_cons, if_pos (by simpa using ha), hta]
      simp
    · rw [List.filter_cons, if_neg (by simpa using ha)]
      exact ih hndt (fun e he => hall e (List.mem_cons_of_mem _ he))

/-- C5 (confirmed): starting from the initial navigator state over any tree
with unique ids and no `Focused` component set, after every finite sequence
of `progress`/`set_focus` calls that completes, at most one element is
focused. -/
theorem c5_at_most_one_focused (rdom : List Elem) (ops : List NavOp) (s1 : Sys)
    (hnodup : (rdom.map Elem.id).Nodup)
    (hinit : ∀ e ∈ rdom, e.focused = false)
    (hrun : runOps (initSys rdom) ops = some s1) :
    (s1.rdom.filter (fun e => e.focused)).length ≤ 1 := by
  have hinv0 : FocusInv (initSys rdom) := by
    refine ⟨by simpa [initSys] using hnodup, ?_⟩
    intro e he hf
    rw [hinit e he] at hf
    cases hf
  obtain ⟨hnd1, hfoc⟩ := runOps_inv ops (initSys rdom) s1 hinv0 hrun
  rcases hL : s1.lastFocusedId with _ | c
  · have hempty : s1.rdom.filter (fun e => e.focused) = [] := by
      rw [List.filter_eq_nil_iff]
      intro e he hf
      have h2 := hfoc e he (by simpa using hf)
      rw [hL] at h2
      cases h2
    rw [hempty]
    simp
  · apply filter_focused_le_one s1.rdom c hnd1
    intro e he hf
    have h2 := hfoc e he hf
    rw [hL] at h2
    exact (Option.some.inj h2).symm

/-- The tree used by the C5 witness. -/
def c5Rdom : List Elem :=
  [⟨0, FocusLevel.Focusable, false, false⟩, ⟨1, FocusLevel.Focusable, false, false⟩]

/-- C5, witness: `c5_at_most_one_focused` after a concrete
`navigate(true)`-then-`set_focus(0)` sequence on a two-element tree. -/
theorem c5_at_most_one_focused_witness :
    ∃ s1, runOps (initSys c5Rdom) [NavOp.nav 20 true, NavOp.setF 0] = some s1 ∧
      (s1.rdom.filter (fun e => e.focused)).length ≤ 1 := by
  rcases hrun : runOps (initSys c5Rdom) [NavOp.nav 20 true, NavOp.setF 0]
    with _ | s1
  · exact absurd hrun (by decide)
  · exact ⟨s1, rfl, c5_at_most_one_focused c5Rdom [NavOp.nav 20 true, NavOp.setF 0]
      s1 (by decide) (by decide) hrun⟩

/-! ## C10: `set_focus` marks only the new element dirty -/

/-- A two-`Focusable`-element tree with the first element focused, used to
contrast `progress` with `set_focus`. -/
def c10Sys : Sys :=
  { rdom := [⟨0, FocusLevel.Focusable, true, false⟩,
             ⟨1, FocusLevel.Focusable, false, false⟩],
    cursor := some 0, lastFocusedId := some 0,
    focusLevel := FocusLevel.Focusable, dirty := [] }

/-- The state `progress` reaches from `c10Sys`: focus moved from element 0 to
element 1 and *both* are in the dirty set. -/
def c10S1 : Sys :=
  { rdom := [⟨0, FocusLevel.Focusable, false, false⟩,
             ⟨1, FocusLevel.Focusable, true, false⟩],
    cursor := some 1, lastFocusedId := some 1,
    focusLevel := FocusLevel.Focusable, dirty := [0, 1] }

/-- C10 (confirmed): when `set_focus(id)` is called while a different element
`old` (not yet dirty) is focused, afterwards the dirty set contains `id` but
not `old`, although `old` was unfocused — whereas `progress` (second
conjunct, on the concrete tree `c10Sys`) inserts both the previously focused
and the newly focused element into the dirty set. -/
theorem c10_set_focus_dirty (s : Sys) (id old : Nat)
    (hlast : s.lastFocusedId = some old) (hne : old ≠ id)
    (hdirty : old ∉ s.dirty)
    (hold : (lookupElem s.rdom old).isSome = true)
    (hid : (lookupElem s.rdom id).isSome = true) :
    (∃ s1, setFocus s id = some s1 ∧ id ∈ s1.dirty ∧ old ∉ s1.dirty ∧
      ∀ e ∈ s1.rdom, e.id = old → e.focused = false) ∧
    (progress 20 c10Sys true = some c10S1 ∧
      (0 : Nat) ∈ c10S1.dirty ∧ (1 : Nat) ∈ c10S1.dirty) := by
  constructor
  · obtain ⟨eOld, hOldEq⟩ := Option.isSome_iff_exists.mp hold
    have h1 : (lookupElem (setFocused s.rdom old false) id).isSome = true := by
      rw [lookup_setFocused_isSome]
      exact hid
    obtain ⟨e2, h2⟩ := Option.isSome_iff_exists.mp h1
    have h3 : (indexOfId (setFocused (setFocused s.rdom old false) id true) id).isSome
        = true := by
      rw [indexOfId_isSome, lookup_setFocused_isSome, lookup_setFocused_isSome]
      exact hid
    obtain ⟨idx, h4⟩ := Option.isSome_iff_exists.mp h3
    refine ⟨{ rdom := setFocused (setFocused s.rdom old false) id true,
              cursor := some idx, lastFocusedId := some id,
              focusLevel := e2.level, dirty := insertDirty s.dirty id },
            ?_, ?_, ?_, ?_⟩
    · simp only [setFocus, hlast, hOldEq, h2, h4]
    · exact (mem_insertDirty _ _ _).mpr (Or.inr rfl)
    · intro hc
      rcases (mem_insertDirty _ _ _).mp hc with hin | heq
      · exact hdirty hin
      · exact hne heq
    · intro e he hid0
      rcases mem_setFocused he with ⟨hidf, _⟩ | ⟨he1, _⟩
      · have : old = id := by rw [← hid0, hidf]
        exact absurd this hne
      · rcases mem_setFocused he1 with ⟨_, hfb⟩ | ⟨_, hne2⟩
        · exact hfb
        · exact absurd hid0 hne2
  · exact ⟨rfl, by decide, by decide⟩

/-- The concrete state for the C10 witness: element 0 focused, `set_focus(1)`
is about to be called. -/
def c10W : Sys :=
  { rdom := [⟨0, FocusLevel.Focusable, true, false⟩,
             ⟨1, FocusLevel.Unfocusable, false, false⟩],
    cursor := some 0, lastFocusedId := some 0,
    focusLevel := FocusLevel.Focusable, dirty := [] }

/-- C10, witness: `c10_set_focus_dirty` on `c10W` with `id = 1`, `old = 0`. -/
theorem c10_set_focus_dirty_witness :
    (∃ s1, setFocus c10W 1 = some s1 ∧ 1 ∈ s1.dirty ∧ 0 ∉ s1.dirty ∧
      ∀ e ∈ s1.rdom, e.id = 0 → e.focused = false) ∧
    (progress 20 c10Sys true = some c10S1 ∧
      (0 : Nat) ∈ c10S1.dirty ∧ (1 : Nat) ∈ c10S1.dirty) :=
  c10_set_focus_dirty c10W 1 0 rfl (by decide) (by decide) (by decide) (by decide)

end Blitz
